import Mathlib

/-
Verification development for bondnet's reaction-graph construction pipeline
(`bondnet/model/gated_reaction_network.py`).

Modelling conventions:
* A feature tensor of `n` rows and width `d` is a `List (Fin d → Int)`
  (torch tensors are rectangular, so rows are functions out of `Fin d`;
  ideal integer arithmetic stands in for float arithmetic).
* All node types share one feature width `d`.  In the source each node type
  carries its own width, but the three types are processed independently and
  never mixed, so a single width parameter loses nothing.
* Python `assert` failures, torch shape errors, index errors and DGL/device
  errors are modelled as `Except String` / `Option` error values.
-/

namespace Bondnet

/-- Feature row of width `d` (one row of a 2D torch tensor). -/
abbrev Row (d : Nat) := Fin d → Int

/-- Feature tensor: list of rows (2D torch tensor, rows = nodes). -/
abbrev Tensor (d : Nat) := List (Row d)

/-- The all-zeros row (`torch.zeros`-style row). -/
def zeroRow (d : Nat) : Row d := fun _ => 0

/-- Pointwise row addition. -/
def addRow {d : Nat} (r s : Row d) : Row d := fun k => r k + s k

/-- Pointwise row subtraction. -/
def subRow {d : Nat} (r s : Row d) : Row d := fun k => r k - s k

/-- `torch.sum(t, dim=0)`: sum all rows of a tensor (empty sum is zero). -/
def sumRows {d : Nat} (t : Tensor d) : Row d := t.foldr addRow (zeroRow d)

/-- `itertools.compress(data, selectors)`: keep the entries whose selector is
true, truncating at the shorter list. -/
def compress {α : Type} : List α → List Bool → List α
  | [], _ => []
  | _, [] => []
  | x :: xs, b :: bs => if b then x :: compress xs bs else compress xs bs

/-- Fancy indexing `t[idxs]` on the row dimension: row `k` of the result is
row `idxs[k]` of `t`; an out-of-range index is a torch `IndexError`. -/
def selectRows {d : Nat} (t : Tensor d) : List Nat → Option (Tensor d)
  | [] => some []
  | j :: rest =>
    match t[j]?, selectRows t rest with
    | some r, some sel => some (r :: sel)
    | _, _ => none

/-- Torch elementwise subtraction `p - r` of two 2D tensors of width `d`,
with broadcasting over the row dimension when one side has exactly one row;
any other row-count mismatch is a shape error. -/
def subTensor {d : Nat} (p r : Tensor d) : Option (Tensor d) :=
  if p.length = r.length then some (List.zipWith subRow p r)
  else if p.length = 1 then some (r.map (fun s => subRow (p.headD (zeroRow d)) s))
  else if r.length = 1 then some (p.map (fun s => subRow s (r.headD (zeroRow d))))
  else none

/-- The three node types of the heterogeneous molecule graph. -/
inductive NodeType : Type
  | atom
  | bond
  | global
deriving DecidableEq, Repr

/-- A single (unbatched) molecule graph, reduced to the data
`create_rxn_graph` reads: the `ft` feature tensor of each node type
(`g.nodes[nt].data["ft"]`).  A node type's node count is the row count of
its feature tensor. -/
structure Mol (d : Nat) : Type where
  atomFt : Tensor d
  bondFt : Tensor d
  globalFt : Tensor d
deriving DecidableEq

/-- `g.nodes[nt].data["ft"]` for a molecule graph. -/
def molFt {d : Nat} (m : Mol d) : NodeType → Tensor d
  | NodeType.atom => m.atomFt
  | NodeType.bond => m.bondFt
  | NodeType.global => m.globalFt

/-- `torch.cat([p.nodes[nt].data["ft"] for p in mols])`: concatenated feature
rows of one node type across a list of molecule graphs. -/
def catMolFt {d : Nat} (mols : List (Mol d)) (nt : NodeType) : Tensor d :=
  (mols.map (fun p => molFt p nt)).flatten

/-- The `bond`-branch of `create_rxn_graph`, lines 219-229: concatenate the
bond feature tensors of the products that have bonds
(`itertools.compress(products_ft, has_bonds["products"])`) and append one
all-zero row for the broken bond
(`products_ft.append(reactants_ft[0].new_zeros((1, d)))`). -/
def paddedProductBondFt {d : Nat} (products : List (Mol d)) (hbp : List Bool) :
    Tensor d :=
  (compress (products.map (fun p => p.bondFt)) hbp ++ [[zeroRow d]]).flatten

/-- Loop body of `create_rxn_graph` for one node type `nt` (lines 211-242):
build `feats[nt] = products_ft - reactants_ft` after the bond-padding,
global-pooling and mapping-reorder steps; `assert` / shape / index failures
are `Except.error`. -/
def rxnFtForType {d : Nat} (reactants products : List (Mol d))
    (mappings : NodeType → List Nat) (hbp : List Bool) (nt : NodeType) :
    Except String (Tensor d) :=
  let reactants_ft := catMolFt reactants nt
  let products_ft :=
    if nt = NodeType.bond then paddedProductBondFt products hbp
    else catMolFt products nt
  if nt = NodeType.global then
    match subTensor [sumRows products_ft] [sumRows reactants_ft] with
    | some t => Except.ok t
    | none => Except.error "shape mismatch in subtraction"
  else
    if products_ft.length = (mappings nt).length then
      match selectRows products_ft (mappings nt) with
      | some sel =>
        match subTensor sel reactants_ft with
        | some t => Except.ok t
        | none => Except.error "shape mismatch in subtraction"
      | none => Except.error "index out of range"
    else
      Except.error "products_ft and mappings have different length"

/-- The `for nt in ntypes` loop of `create_rxn_graph`, building the feats
dict (modelled as an association list keyed by node type, in loop order). -/
def buildFeats {d : Nat} (reactants products : List (Mol d))
    (mappings : NodeType → List Nat) (hbp : List Bool) :
    List NodeType → Except String (List (NodeType × Tensor d))
  | [] => Except.ok []
  | nt :: rest =>
    match rxnFtForType reactants products mappings hbp nt with
    | Except.ok ft =>
      match buildFeats reactants products mappings hbp rest with
      | Except.ok l => Except.ok ((nt, ft) :: l)
      | Except.error e => Except.error e
    | Except.error e => Except.error e

/-- The default `ntypes=("atom", "bond", "global")`. -/
def allTypes : List NodeType := [NodeType.atom, NodeType.bond, NodeType.global]

/-- `create_rxn_graph(reactants, products, mappings, has_bonds, ntypes)`
(lines 177-244): asserts exactly one reactant, returns the reactant graph
together with the per-type difference features. -/
def create_rxn_graph {d : Nat} (reactants products : List (Mol d))
    (mappings : NodeType → List Nat) (hbp : List Bool) (ntypes : List NodeType) :
    Except String (Mol d × List (NodeType × Tensor d)) :=
  match reactants with
  | [g] =>
    match buildFeats [g] products mappings hbp ntypes with
    | Except.ok fts => Except.ok (g, fts)
    | Except.error e => Except.error e
  | _ => Except.error "number of reactants not supported"

/-- A torch/DGL device. -/
inductive Device : Type
  | cpu
  | cuda (idx : Nat)
deriving DecidableEq, Repr

/-- A batched DGL heterograph, reduced to the data the pipeline reads: the
device it lives on and `batch_num_nodes(nt)`, the per-molecule node counts
of each type. -/
structure BatchedGraph : Type where
  device : Device
  counts : NodeType → List Nat

/-- `graph.to(dev)`: raises when the target is a CUDA device and no CUDA
device is available; otherwise yields the graph on the target device.
`cudaAvailable` models whether the machine has a usable CUDA device. -/
def toDevice (cudaAvailable : Bool) (g : BatchedGraph) (dev : Device) :
    Except String BatchedGraph :=
  match dev with
  | Device.cuda _ =>
    if cudaAvailable then Except.ok { g with device := dev }
    else Except.error "CUDA not available"
  | Device.cpu => Except.ok { g with device := Device.cpu }

/-- `torch.split(xs, sizes)`: split `xs` into `sizes.length` chunks of the
given sizes; errors (`none`) unless the sizes sum exactly to the length. -/
def splitSizes {α : Type} : List Nat → List α → Option (List (List α))
  | [], xs => if xs.isEmpty then some [] else none
  | n :: rest, xs =>
    if n ≤ xs.length then
      match splitSizes rest (xs.drop n) with
      | some l => some (xs.take n :: l)
      | none => none
    else none

/-- Association-list lookup in a feats dict keyed by node type. -/
def ftLookup {d : Nat} : List (NodeType × Tensor d) → NodeType → Option (Tensor d)
  | [], _ => none
  | (k, t) :: rest, nt => if k = nt then some t else ftLookup rest nt

/-- Dict access `fts[nt]`; a missing key is a Python `KeyError`. -/
def lookupOrErr {d : Nat} (fts : List (NodeType × Tensor d)) (nt : NodeType) :
    Except String (Tensor d) :=
  match ftLookup fts nt with
  | some t => Except.ok t
  | none => Except.error "KeyError"

/-- Zip three single-molecule feature-tensor lists into molecule records. -/
def zip3Mol {d : Nat} : List (Tensor d) → List (Tensor d) → List (Tensor d) →
    List (Mol d)
  | a :: as, b :: bs, g :: gs => Mol.mk a b g :: zip3Mol as bs gs
  | _, _, _ => []

/-- Lines 139-145 of `mol_graph_to_rxn_graph`: attach the working feature
map to the (device-moved) batched graph (`graph.nodes[nt].data.update`)
and `dgl.unbatch` it, slicing each type's feature tensor by the
per-molecule node counts.  DGL rejects a feature tensor whose row count
differs from the type's total node count, and a batched graph has the same
number of component graphs for every type. -/
def unbatchWithFeats {d : Nat} (g : BatchedGraph) (feats : NodeType → Tensor d) :
    Option (List (Mol d)) :=
  match splitSizes (g.counts NodeType.atom) (feats NodeType.atom),
      splitSizes (g.counts NodeType.bond) (feats NodeType.bond),
      splitSizes (g.counts NodeType.global) (feats NodeType.global) with
  | some as, some bs, some gs =>
    if as.length = bs.length ∧ bs.length = gs.length then some (zip3Mol as bs gs)
    else none
  | _, _, _ => none

/-- A reaction descriptor (`bondnet.data.reaction_network.Reaction`, an
external collaborator of this module): the batch indices of the reactant
and product molecules, the flattened atom and bond correspondence maps, and
the per-product bond map used only to detect bond-free products.  The class
itself is outside this file's source, so the `as_list` fields are carried
as given rather than derived. -/
structure Reaction : Type where
  reactants : List Nat
  products : List Nat
  atom_mapping_as_list : List Nat
  bond_mapping : List (List Nat)
  bond_mapping_as_list : List Nat

/-- `mappings = {"atom": rxn.atom_mapping_as_list, "bond": rxn.bond_mapping_as_list}`
(line 160); the `global` key is absent and never read. -/
def mappingsOf (rxn : Reaction) : NodeType → List Nat
  | NodeType.atom => rxn.atom_mapping_as_list
  | NodeType.bond => rxn.bond_mapping_as_list
  | NodeType.global => []

/-- `has_bonds["products"] = [len(mp) > 0 for mp in rxn.bond_mapping]`
(line 158). -/
def hbpOf (rxn : Reaction) : List Bool :=
  rxn.bond_mapping.map (fun mp => !mp.isEmpty)

/-- Python list gathering `[graphs[i] for i in idxs]`; an out-of-range index
is an `IndexError`. -/
def gatherMols {d : Nat} (graphs : List (Mol d)) : List Nat →
    Except String (List (Mol d))
  | [] => Except.ok []
  | i :: rest =>
    match graphs.get? i with
    | some m =>
      match gatherMols graphs rest with
      | Except.ok ms => Except.ok (m :: ms)
      | Except.error e => Except.error e
    | none => Except.error "IndexError"

/-- Loop body of `mol_graph_to_rxn_graph` for one reaction (lines 150-166):
gather the reactant and product graphs and call `create_rxn_graph` with the
reaction's mappings and has-bonds data (node types `(atom, bond, global)`,
the keys of the feats dict). -/
def perRxnCreate {d : Nat} (graphs : List (Mol d)) (rxn : Reaction) :
    Except String (Mol d × List (NodeType × Tensor d)) :=
  match gatherMols graphs rxn.reactants with
  | Except.ok reactants =>
    match gatherMols graphs rxn.products with
    | Except.ok products =>
      create_rxn_graph reactants products (mappingsOf rxn) (hbpOf rxn) allTypes
    | Except.error e => Except.error e
  | Except.error e => Except.error e

/-- The `for rxn in reactions` loop of `mol_graph_to_rxn_graph`, collecting
the per-reaction graphs and feats in reaction-list order. -/
def buildAll {d : Nat} (graphs : List (Mol d)) : List Reaction →
    Except String (List (Mol d × List (NodeType × Tensor d)))
  | [] => Except.ok []
  | rxn :: rest =>
    match perRxnCreate graphs rxn with
    | Except.ok p =>
      match buildAll graphs rest with
      | Except.ok ps => Except.ok (p :: ps)
      | Except.error e => Except.error e
    | Except.error e => Except.error e

/-- `torch.cat([ft[nt] for ft in reaction_feats])` (line 172): concatenate
one node type's feature tensors across reactions; `torch.cat` of an empty
list of tensors raises. -/
def catFeats {d : Nat} (pairs : List (Mol d × List (NodeType × Tensor d)))
    (nt : NodeType) : Except String (Tensor d) :=
  match pairs with
  | [] => Except.error "cat of empty tensor list"
  | [p] => lookupOrErr p.2 nt
  | p :: rest =>
    match lookupOrErr p.2 nt, catFeats rest nt with
    | Except.ok t, Except.ok ts => Except.ok (t ++ ts)
    | Except.error e, _ => Except.error e
    | _, Except.error e => Except.error e

/-- The `for nt in feats` loop of lines 170-172, building the batched feats
dict over the given node types. -/
def batchedFeats {d : Nat} (pairs : List (Mol d × List (NodeType × Tensor d))) :
    List NodeType → Except String (List (NodeType × Tensor d))
  | [] => Except.ok []
  | nt :: rest =>
    match catFeats pairs nt, batchedFeats pairs rest with
    | Except.ok t, Except.ok l => Except.ok ((nt, t) :: l)
    | Except.error e, _ => Except.error e
    | _, Except.error e => Except.error e

/-- `mol_graph_to_rxn_graph(graph, feats, reactions)` (lines 112-174): move
the batched molecule graph to `cuda:0`, attach the working feature map,
unbatch, build one reaction graph per reaction in list order, and rebatch
(`dgl.batch` of an empty list raises, as does `torch.cat` of an empty
list).  The batched reaction graph is the list of per-reaction graphs. -/
def mol_graph_to_rxn_graph {d : Nat} (cudaAvailable : Bool) (graph : BatchedGraph)
    (feats : NodeType → Tensor d) (reactions : List Reaction) :
    Except String (List (Mol d) × List (NodeType × Tensor d)) :=
  match toDevice cudaAvailable graph (Device.cuda 0) with
  | Except.ok graph2 =>
    match unbatchWithFeats graph2 feats with
    | some graphs =>
      match buildAll graphs reactions with
      | Except.ok pairs =>
        match batchedFeats pairs allTypes with
        | Except.ok bfeats => Except.ok (pairs.map Prod.fst, bfeats)
        | Except.error e => Except.error e
      | Except.error e => Except.error e
    | none => Except.error "feature row count does not match node count"
  | Except.error e => Except.error e

/-- Per-type feature maps of a batch, as passed through the network. -/
abbrev Feats (d : Nat) := NodeType → Tensor d

/-- Apply a list of feature-transforming layers in order (the
`for layer in self.gated_layers` loop; graph and norm arguments are fixed
for the call, so each layer is a map on feature dicts). -/
def applyLayers {d : Nat} (layers : List (Feats d → Feats d)) (feats : Feats d) :
    Feats d :=
  layers.foldl (fun f l => l f) feats

/-- Apply the fully-connected layers row-wise (`for layer in self.fc_layers`). -/
def applyFcs {m : Nat} (fcs : List (Row m → Row m)) (r : Row m) : Row m :=
  fcs.foldl (fun x f => f x) r

/-- Zip three lists with a ternary function, truncating at the shortest. -/
def zip3With {α β γ δ : Type} (f : α → β → γ → δ) :
    List α → List β → List γ → List δ
  | a :: as, b :: bs, c :: cs => f a b c :: zip3With f as bs cs
  | _, _, _ => []

/-- Modelled from the spec: the readout layer (`self.readout_layer`, defined
in the `GatedGCNMol` base class and readout module, missing from the given
sources) performs a permutation-invariant pooling per graph of the batched
reaction graph, one fixed-size row per graph, using the reaction graph's
per-type node counts to split the batched feature tensors.  The pooling
itself is an abstract function `pool` of the three per-graph tensors. -/
def readout_layer {d m : Nat} (pool : Tensor d → Tensor d → Tensor d → Row m)
    (rgs : List (Mol d)) (rfeats : List (NodeType × Tensor d)) :
    Except String (List (Row m)) :=
  match lookupOrErr rfeats NodeType.atom, lookupOrErr rfeats NodeType.bond,
      lookupOrErr rfeats NodeType.global with
  | Except.ok ta, Except.ok tb, Except.ok tg =>
    match splitSizes (rgs.map (fun g => g.atomFt.length)) ta,
        splitSizes (rgs.map (fun g => g.bondFt.length)) tb,
        splitSizes (rgs.map (fun g => g.globalFt.length)) tg with
    | some as, some bs, some gs => Except.ok (zip3With pool as bs gs)
    | _, _, _ => Except.error "readout split size mismatch"
  | Except.error e, _, _ => Except.error e
  | _, Except.error e, _ => Except.error e
  | _, _, Except.error e => Except.error e

/-- `GatedGCNReactionNetwork.forward` (lines 9-42): embedding, gated layers,
reaction-graph construction, readout, fully-connected layers.  The
embedding and gated layers live in the `GatedGCNMol` base class (missing
from the given sources); modelled from the spec as abstract feature
transformers `emb` and `layers`. -/
def forward {d m : Nat} (cudaAvailable : Bool) (emb : Feats d → Feats d)
    (layers : List (Feats d → Feats d)) (pool : Tensor d → Tensor d → Tensor d → Row m)
    (fcs : List (Row m → Row m)) (graph : BatchedGraph) (feats : Feats d)
    (reactions : List Reaction) : Except String (List (Row m)) :=
  let feats1 := applyLayers layers (emb feats)
  match mol_graph_to_rxn_graph cudaAvailable graph feats1 reactions with
  | Except.ok (rgs, rfeats) =>
    match readout_layer pool rgs rfeats with
    | Except.ok rows => Except.ok (rows.map (applyFcs fcs))
    | Except.error e => Except.error e
  | Except.error e => Except.error e

/-- `GatedGCNReactionNetwork.feature_before_fc` (lines 44-64): the same
pipeline as `forward` but stopping after the readout layer. -/
def feature_before_fc {d m : Nat} (cudaAvailable : Bool) (emb : Feats d → Feats d)
    (layers : List (Feats d → Feats d)) (pool : Tensor d → Tensor d → Tensor d → Row m)
    (graph : BatchedGraph) (feats : Feats d) (reactions : List Reaction) :
    Except String (List (Row m)) :=
  let feats1 := applyLayers layers (emb feats)
  match mol_graph_to_rxn_graph cudaAvailable graph feats1 reactions with
  | Except.ok (rgs, rfeats) => readout_layer pool rgs rfeats
  | Except.error e => Except.error e

/-- `_split_batched_output(graph, value)` (lines 99-109): split a tensor into
`num_graphs` chunks by the per-molecule bond-node counts. -/
def _split_batched_output {d : Nat} (graph : BatchedGraph) (value : Tensor d) :
    Except String (List (Tensor d)) :=
  match splitSizes (graph.counts NodeType.bond) value with
  | some l => Except.ok l
  | none => Except.error "split sizes do not sum to tensor length"

/-- The `for layer in self.gated_layers` loop of `feature_at_each_layer`
(lines 88-94), collecting the per-molecule bond-feature split after every
gated layer in layer order. -/
def layerTrace {d : Nat} (graph : BatchedGraph) :
    List (Feats d → Feats d) → Feats d → Except String (List (List (Tensor d)))
  | [], _ => Except.ok []
  | l :: rest, feats =>
    let feats2 := l feats
    match _split_batched_output graph (feats2 NodeType.bond) with
    | Except.ok fts =>
      match layerTrace graph rest feats2 with
      | Except.ok acc => Except.ok (fts :: acc)
      | Except.error e => Except.error e
    | Except.error e => Except.error e

/-- `GatedGCNReactionNetwork.feature_at_each_layer` (lines 66-96): after the
embedding and after every gated layer, record the per-molecule split of the
bond feature tensor.  The dict keyed `0, 1, …` is modelled as the list of
its values in key order; the embedding and gated layers are modelled from
the spec as abstract feature transformers. -/
def feature_at_each_layer {d : Nat} (emb : Feats d → Feats d)
    (layers : List (Feats d → Feats d)) (graph : BatchedGraph) (feats : Feats d) :
    Except String (List (List (Tensor d))) :=
  let feats1 := emb feats
  match _split_batched_output graph (feats1 NodeType.bond) with
  | Except.ok fts =>
    match layerTrace graph layers feats1 with
    | Except.ok acc => Except.ok (fts :: acc)
    | Except.error e => Except.error e
  | Except.error e => Except.error e

/-- The prediction pipeline restricted to a single reaction: build its
reaction graph, pool its features, and apply the fully-connected layers.
Used to state that the batched forward pass computes exactly this, one row
per reaction in reaction-list order. -/
def predictionFor {d m : Nat} (graphs : List (Mol d))
    (pool : Tensor d → Tensor d → Tensor d → Row m) (fcs : List (Row m → Row m))
    (rxn : Reaction) : Except String (Row m) :=
  match perRxnCreate graphs rxn with
  | Except.ok (_, fts) =>
    match lookupOrErr fts NodeType.atom, lookupOrErr fts NodeType.bond,
        lookupOrErr fts NodeType.global with
    | Except.ok ta, Except.ok tb, Except.ok tg =>
      Except.ok (applyFcs fcs (pool ta tb tg))
    | Except.error e, _, _ => Except.error e
    | _, Except.error e, _ => Except.error e
    | _, _, Except.error e => Except.error e
  | Except.error e => Except.error e

/-! ### Helper lemmas -/

theorem subRow_self {d : Nat} (r : Row d) : subRow r r = zeroRow d := by
  funext k
  simp [subRow, zeroRow]

theorem selectRows_length {d : Nat} {t : Tensor d} :
    ∀ {idxs : List Nat} {sel : Tensor d}, selectRows t idxs = some sel →
      sel.length = idxs.length := by
  intro idxs
  induction idxs with
  | nil => intro sel h; simp [selectRows] at h; simp [← h]
  | cons j rest ih =>
    intro sel h
    simp only [selectRows] at h
    cases hj : t[j]? with
    | none => rw [hj] at h; simp at h
    | some r =>
      rw [hj] at h
      cases hrest : selectRows t rest with
      | none => rw [hrest] at h; simp at h
      | some sel2 =>
        rw [hrest] at h
        simp at h
        subst h
        simp [ih hrest]

theorem selectRows_getElem? {d : Nat} {t : Tensor d} :
    ∀ {idxs : List Nat} {sel : Tensor d}, selectRows t idxs = some sel →
      ∀ k : Nat, sel[k]? = (idxs[k]?).bind (fun j => t[j]?) := by
  intro idxs
  induction idxs with
  | nil => intro sel h k; simp [selectRows] at h; subst h; simp
  | cons j rest ih =>
    intro sel h k
    simp only [selectRows] at h
    cases hj : t[j]? with
    | none => rw [hj] at h; simp at h
    | some r =>
      rw [hj] at h
      cases hrest : selectRows t rest with
      | none => rw [hrest] at h; simp at h
      | some sel2 =>
        rw [hrest] at h
        simp at h
        subst h
        cases k with
        | zero => simp [hj]
        | succ k2 => simp [ih hrest k2]

theorem selectRows_exists {d : Nat} {t : Tensor d} :
    ∀ {idxs : List Nat}, (∀ j ∈ idxs, j < t.length) →
      ∃ sel, selectRows t idxs = some sel := by
  intro idxs
  induction idxs with
  | nil => intro _; exact ⟨[], rfl⟩
  | cons j rest ih =>
    intro h
    have hj : j < t.length := h j (List.mem_cons_self j rest)
    obtain ⟨sel, hsel⟩ := ih (fun i hi => h i (List.mem_cons_of_mem j hi))
    cases hr : t[j]? with
    | none =>
      rw [List.getElem?_eq_none_iff] at hr
      omega
    | some r => exact ⟨r :: sel, by simp only [selectRows, hr, hsel]⟩

theorem selectRows_range_self {d : Nat} (t : Tensor d) :
    selectRows t (List.range t.length) = some t := by
  have hlt : ∀ j ∈ List.range t.length, j < t.length := by
    intro j hj; exact List.mem_range.mp hj
  obtain ⟨sel, hsel⟩ := selectRows_exists hlt
  rw [hsel]
  congr 1
  apply List.ext_getElem?
  intro k
  rw [selectRows_getElem? hsel k]
  by_cases hk : k < t.length
  · simp [List.getElem?_range hk]
  · have h1 : (List.range t.length)[k]? = none := by
      simp [List.getElem?_eq_none_iff, Nat.le_of_not_lt hk]
    have h2 : t[k]? = none := by
      simp [List.getElem?_eq_none_iff, Nat.le_of_not_lt hk]
    simp [h1, h2]

theorem subTensor_of_length_eq {d : Nat} {p r : Tensor d} (h : p.length = r.length) :
    subTensor p r = some (List.zipWith subRow p r) := by
  simp [subTensor, h]

theorem catMolFt_singleton {d : Nat} (m : Mol d) (nt : NodeType) :
    catMolFt [m] nt = molFt m nt := by
  simp [catMolFt]

theorem paddedProductBondFt_length {d : Nat} (products : List (Mol d))
    (hbp : List Bool) :
    (paddedProductBondFt products hbp).length =
      (compress (products.map (fun p => p.bondFt)) hbp).flatten.length + 1 := by
  simp [paddedProductBondFt]

theorem rxnFtForType_global_eq {d : Nat} (reactants products : List (Mol d))
    (mappings : NodeType → List Nat) (hbp : List Bool) :
    rxnFtForType reactants products mappings hbp NodeType.global =
      Except.ok [subRow (sumRows (catMolFt products NodeType.global))
        (sumRows (catMolFt reactants NodeType.global))] := by
  simp [rxnFtForType, subTensor]

theorem rxnFtForType_atom_ok {d : Nat} {reactants products : List (Mol d)}
    {mappings : NodeType → List Nat} {hbp : List Bool} {sel : Tensor d}
    (hlen : (catMolFt products NodeType.atom).length = (mappings NodeType.atom).length)
    (hsel : selectRows (catMolFt products NodeType.atom) (mappings NodeType.atom) =
      some sel)
    (hsub : sel.length = (catMolFt reactants NodeType.atom).length) :
    rxnFtForType reactants products mappings hbp NodeType.atom =
      Except.ok (List.zipWith subRow sel (catMolFt reactants NodeType.atom)) := by
  simp [rxnFtForType, hlen, hsel, subTensor_of_length_eq hsub]

theorem rxnFtForType_bond_ok {d : Nat} {reactants products : List (Mol d)}
    {mappings : NodeType → List Nat} {hbp : List Bool} {sel : Tensor d}
    (hlen : (paddedProductBondFt products hbp).length = (mappings NodeType.bond).length)
    (hsel : selectRows (paddedProductBondFt products hbp) (mappings NodeType.bond) =
      some sel)
    (hsub : sel.length = (catMolFt reactants NodeType.bond).length) :
    rxnFtForType reactants products mappings hbp NodeType.bond =
      Except.ok (List.zipWith subRow sel (catMolFt reactants NodeType.bond)) := by
  simp [rxnFtForType, hlen, hsel, subTensor_of_length_eq hsub]

theorem rxnFtForType_atom_mismatch {d : Nat} {reactants products : List (Mol d)}
    {mappings : NodeType → List Nat} {hbp : List Bool}
    (h : (catMolFt products NodeType.atom).length ≠ (mappings NodeType.atom).length) :
    rxnFtForType reactants products mappings hbp NodeType.atom =
      Except.error "products_ft and mappings have different length" := by
  simp [rxnFtForType, h]

theorem rxnFtForType_bond_mismatch {d : Nat} {reactants products : List (Mol d)}
    {mappings : NodeType → List Nat} {hbp : List Bool}
    (h : (paddedProductBondFt products hbp).length ≠ (mappings NodeType.bond).length) :
    rxnFtForType reactants products mappings hbp NodeType.bond =
      Except.error "products_ft and mappings have different length" := by
  simp [rxnFtForType, h]

theorem rxnFtForType_atom_ok_len {d : Nat} {reactants products : List (Mol d)}
    {mappings : NodeType → List Nat} {hbp : List Bool} {t : Tensor d}
    (h : rxnFtForType reactants products mappings hbp NodeType.atom = Except.ok t) :
    (catMolFt products NodeType.atom).length = (mappings NodeType.atom).length := by
  by_contra hne
  rw [rxnFtForType_atom_mismatch hne] at h
  exact absurd h (by simp)

theorem rxnFtForType_bond_ok_len {d : Nat} {reactants products : List (Mol d)}
    {mappings : NodeType → List Nat} {hbp : List Bool} {t : Tensor d}
    (h : rxnFtForType reactants products mappings hbp NodeType.bond = Except.ok t) :
    (paddedProductBondFt products hbp).length = (mappings NodeType.bond).length := by
  by_contra hne
  rw [rxnFtForType_bond_mismatch hne] at h
  exact absurd h (by simp)

theorem buildFeats_allTypes_eq {d : Nat} {reactants products : List (Mol d)}
    {mappings : NodeType → List Nat} {hbp : List Bool} {ta tb tg : Tensor d}
    (ha : rxnFtForType reactants products mappings hbp NodeType.atom = Except.ok ta)
    (hb : rxnFtForType reactants products mappings hbp NodeType.bond = Except.ok tb)
    (hg : rxnFtForType reactants products mappings hbp NodeType.global = Except.ok tg) :
    buildFeats reactants products mappings hbp allTypes =
      Except.ok [(NodeType.atom, ta), (NodeType.bond, tb), (NodeType.global, tg)] := by
  simp [buildFeats, allTypes, ha, hb, hg]

theorem buildFeats_allTypes_inv {d : Nat} {reactants products : List (Mol d)}
    {mappings : NodeType → List Nat} {hbp : List Bool}
    {fts : List (NodeType × Tensor d)}
    (h : buildFeats reactants products mappings hbp allTypes = Except.ok fts) :
    ∃ ta tb tg,
      rxnFtForType reactants products mappings hbp NodeType.atom = Except.ok ta ∧
      rxnFtForType reactants products mappings hbp NodeType.bond = Except.ok tb ∧
      rxnFtForType reactants products mappings hbp NodeType.global = Except.ok tg ∧
      fts = [(NodeType.atom, ta), (NodeType.bond, tb), (NodeType.global, tg)] := by
  simp only [allTypes, buildFeats] at h
  cases ha : rxnFtForType reactants products mappings hbp NodeType.atom with
  | error e => rw [ha] at h; simp at h
  | ok ta =>
    rw [ha] at h
    cases hb : rxnFtForType reactants products mappings hbp NodeType.bond with
    | error e => rw [hb] at h; simp at h
    | ok tb =>
      rw [hb] at h
      cases hg : rxnFtForType reactants products mappings hbp NodeType.global with
      | error e => rw [hg] at h; simp at h
      | ok tg =>
        rw [hg] at h
        simp at h
        exact ⟨ta, tb, tg, rfl, rfl, rfl, h.symm⟩

theorem create_rxn_graph_ok_of {d : Nat} {r : Mol d} {products : List (Mol d)}
    {mappings : NodeType → List Nat} {hbp : List Bool} {ntypes : List NodeType}
    {fts : List (NodeType × Tensor d)}
    (h : buildFeats [r] products mappings hbp ntypes = Except.ok fts) :
    create_rxn_graph [r] products mappings hbp ntypes = Except.ok (r, fts) := by
  simp [create_rxn_graph, h]

theorem create_rxn_graph_err_of {d : Nat} {r : Mol d} {products : List (Mol d)}
    {mappings : NodeType → List Nat} {hbp : List Bool} {ntypes : List NodeType}
    {e : String}
    (h : buildFeats [r] products mappings hbp ntypes = Except.error e) :
    create_rxn_graph [r] products mappings hbp ntypes = Except.error e := by
  simp [create_rxn_graph, h]

theorem create_rxn_graph_ok_inv {d : Nat} {r g : Mol d} {products : List (Mol d)}
    {mappings : NodeType → List Nat} {hbp : List Bool} {ntypes : List NodeType}
    {fts : List (NodeType × Tensor d)}
    (h : create_rxn_graph [r] products mappings hbp ntypes = Except.ok (g, fts)) :
    g = r ∧ buildFeats [r] products mappings hbp ntypes = Except.ok fts := by
  simp only [create_rxn_graph] at h
  cases hb : buildFeats [r] products mappings hbp ntypes with
  | error e => rw [hb] at h; simp at h
  | ok fts2 =>
    rw [hb] at h
    simp at h
    exact ⟨h.1.symm, by rw [h.2]⟩

/-- Well-formedness of one reaction's data relative to `create_rxn_graph`:
the atom and bond correspondence maps have the length of the concatenated
(for bond: padded) product feature tensors, index into them, and have the
reactant's row count, so that reordering and subtraction are well-shaped. -/
def createOkCond {d : Nat} (r : Mol d) (products : List (Mol d))
    (mappings : NodeType → List Nat) (hbp : List Bool) : Prop :=
  (catMolFt products NodeType.atom).length = (mappings NodeType.atom).length ∧
  (∀ j ∈ mappings NodeType.atom, j < (catMolFt products NodeType.atom).length) ∧
  (mappings NodeType.atom).length = r.atomFt.length ∧
  (paddedProductBondFt products hbp).length = (mappings NodeType.bond).length ∧
  (∀ j ∈ mappings NodeType.bond, j < (paddedProductBondFt products hbp).length) ∧
  (mappings NodeType.bond).length = r.bondFt.length

instance {d : Nat} (r : Mol d) (products : List (Mol d))
    (mappings : NodeType → List Nat) (hbp : List Bool) :
    Decidable (createOkCond r products mappings hbp) := by
  unfold createOkCond
  infer_instance

theorem create_rxn_graph_ok_of_cond {d : Nat} {r : Mol d} {products : List (Mol d)}
    {mappings : NodeType → List Nat} {hbp : List Bool}
    (h : createOkCond r products mappings hbp) :
    ∃ sa sb,
      selectRows (catMolFt products NodeType.atom) (mappings NodeType.atom) = some sa ∧
      selectRows (paddedProductBondFt products hbp) (mappings NodeType.bond) = some sb ∧
      create_rxn_graph [r] products mappings hbp allTypes =
        Except.ok (r,
          [(NodeType.atom, List.zipWith subRow sa r.atomFt),
           (NodeType.bond, List.zipWith subRow sb r.bondFt),
           (NodeType.global,
             [subRow (sumRows (catMolFt products NodeType.global))
               (sumRows r.globalFt)])]) := by
  obtain ⟨ha1, ha2, ha3, hb1, hb2, hb3⟩ := h
  obtain ⟨sa, hsa⟩ := selectRows_exists ha2
  obtain ⟨sb, hsb⟩ := selectRows_exists hb2
  have hca : catMolFt [r] NodeType.atom = r.atomFt := catMolFt_singleton r _
  have hcb : catMolFt [r] NodeType.bond = r.bondFt := catMolFt_singleton r _
  have hcg : catMolFt [r] NodeType.global = r.globalFt := catMolFt_singleton r _
  have hsalen : sa.length = (catMolFt [r] NodeType.atom).length := by
    rw [selectRows_length hsa, hca, ← ha3]
  have hsblen : sb.length = (catMolFt [r] NodeType.bond).length := by
    rw [selectRows_length hsb, hcb, ← hb3]
  refine ⟨sa, sb, hsa, hsb, ?_⟩
  have ha := @rxnFtForType_atom_ok _ _ _ _ hbp _ ha1 hsa hsalen
  have hb := rxnFtForType_bond_ok hb1 hsb hsblen
  have hg := rxnFtForType_global_eq [r] products mappings hbp
  rw [hca] at ha
  rw [hcb] at hb
  rw [hcg] at hg
  exact create_rxn_graph_ok_of (buildFeats_allTypes_eq ha hb hg)

theorem addRow_zero {d : Nat} (r : Row d) : addRow r (zeroRow d) = r := by
  funext k
  simp [addRow, zeroRow]

theorem sumRows_single {d : Nat} (r : Row d) : sumRows [r] = r := by
  simp [sumRows, addRow_zero]

theorem sumRows_pair {d : Nat} (r s : Row d) : sumRows [r, s] = addRow r s := by
  simp only [sumRows, List.foldr_cons, List.foldr_nil]
  rw [addRow_zero]

theorem catMolFt_pair {d : Nat} (p q : Mol d) (nt : NodeType) :
    catMolFt [p, q] nt = molFt p nt ++ molFt q nt := by
  simp [catMolFt]

theorem paddedProductBondFt_eq_append {d : Nat} (products : List (Mol d))
    (hbp : List Bool) :
    paddedProductBondFt products hbp =
      (compress (products.map (fun p => p.bondFt)) hbp).flatten ++ [zeroRow d] := by
  simp [paddedProductBondFt]

/-! ### Claims -/

/-- C5: for every reaction descriptor naming more than one reactant, the
Reaction Graph Builder fails its precondition check
(`assert len(reactants) == 1`) and aborts with an error; it never silently
processes only the first reactant. -/
theorem create_rxn_graph_multi_reactant_fails {d : Nat}
    (reactants products : List (Mol d)) (mappings : NodeType → List Nat)
    (hbp : List Bool) (ntypes : List NodeType) (h : 1 < reactants.length) :
    create_rxn_graph reactants products mappings hbp ntypes =
      Except.error "number of reactants not supported" := by
  cases reactants with
  | nil => simp at h
  | cons a rest =>
    cases rest with
    | nil => simp at h
    | cons b rest2 => rfl

/-- Witness for C5: a two-reactant descriptor is rejected. -/
theorem create_rxn_graph_multi_reactant_fails_witness :
    create_rxn_graph (d := 1) [Mol.mk [] [] [], Mol.mk [] [] []] []
      (fun _ => []) [] allTypes =
      Except.error "number of reactants not supported" :=
  create_rxn_graph_multi_reactant_fails _ _ _ _ _ (by decide)

/-- C3 counterexample: a reactant and a feature-identical single product with
the same topology (one atom, one bond, one global node, equal features) and
identity correspondence maps make `create_rxn_graph` raise at the bond
length assert — the zero-row padding makes the padded product bond tensor
one row longer than the identity map — so the computed reaction feature is
not the zero vector for every node type (it does not exist at all). -/
theorem create_rxn_graph_identity_raises_cex :
    create_rxn_graph (d := 1)
      [Mol.mk [fun _ => 1] [fun _ => 1] [fun _ => 1]]
      [Mol.mk [fun _ => 1] [fun _ => 1] [fun _ => 1]]
      (fun nt =>
        match nt with
        | NodeType.atom => [0]
        | NodeType.bond => [0]
        | NodeType.global => [])
      [true] allTypes =
      Except.error "products_ft and mappings have different length" := by
  rfl

/-- C3 amended: for a reactant and a feature-identical single product with
the same topology, identity correspondence maps, and the has-bonds flag the
pipeline derives for it, `create_rxn_graph` over the default node types
always raises at the bond length assert (the unconditionally appended zero
row makes the padded product bond tensor longer than the identity map);
restricted to the atom and global node types it computes the zero vector
for every node. -/
theorem create_rxn_graph_identity_amended {d : Nat} (m : Mol d)
    (mappings : NodeType → List Nat) (hbp : List Bool)
    (hatom : mappings NodeType.atom = List.range m.atomFt.length)
    (hbond : mappings NodeType.bond = List.range m.bondFt.length)
    (hhb : hbp = [decide (0 < m.bondFt.length)]) :
    (create_rxn_graph [m] [m] mappings hbp allTypes =
      Except.error "products_ft and mappings have different length") ∧
    (create_rxn_graph [m] [m] mappings hbp [NodeType.atom, NodeType.global] =
      Except.ok (m, [(NodeType.atom, List.replicate m.atomFt.length (zeroRow d)),
                     (NodeType.global, [zeroRow d])])) := by
  have hca : catMolFt [m] NodeType.atom = m.atomFt := catMolFt_singleton m _
  have hcg : catMolFt [m] NodeType.global = m.globalFt := catMolFt_singleton m _
  have ha : rxnFtForType [m] [m] mappings hbp NodeType.atom =
      Except.ok (List.zipWith subRow m.atomFt m.atomFt) := by
    have hlen1 : (catMolFt [m] NodeType.atom).length = (mappings NodeType.atom).length := by
      rw [hca, hatom, List.length_range]
    have hsel1 : selectRows (catMolFt [m] NodeType.atom) (mappings NodeType.atom) =
        some m.atomFt := by
      rw [hca, hatom]
      exact selectRows_range_self m.atomFt
    have hsub1 : m.atomFt.length = (catMolFt [m] NodeType.atom).length := by
      rw [hca]
    have h1 := @rxnFtForType_atom_ok _ _ _ _ hbp _ hlen1 hsel1 hsub1
    rw [hca] at h1
    exact h1
  have hzip : List.zipWith subRow m.atomFt m.atomFt =
      List.replicate m.atomFt.length (zeroRow d) := by
    rw [List.zipWith_same]
    rw [List.map_congr_left (fun a _ => subRow_self a)]
    simp
  have hpad : (paddedProductBondFt [m] hbp).length ≠ (mappings NodeType.bond).length := by
    rw [hbond, List.length_range, hhb]
    by_cases hn : 0 < m.bondFt.length
    · have hd : decide (0 < m.bondFt.length) = true := by simp [hn]
      rw [hd]
      simp [paddedProductBondFt, compress]
    · have hd : decide (0 < m.bondFt.length) = false := by simp [hn]
      have hn0 : m.bondFt.length = 0 := by omega
      rw [hd]
      simp [paddedProductBondFt, compress, hn0]
  have hberr := @rxnFtForType_bond_mismatch _ [m] _ _ _ hpad
  constructor
  · apply create_rxn_graph_err_of
    simp [buildFeats, allTypes, ha, hberr]
  · have hg := rxnFtForType_global_eq [m] [m] mappings hbp
    rw [hcg] at hg
    have hsub : subRow (sumRows m.globalFt) (sumRows m.globalFt) = zeroRow d :=
      subRow_self _
    rw [hsub] at hg
    apply create_rxn_graph_ok_of
    simp [buildFeats, ha, hg, hzip]
    rw [List.map_congr_left (fun a _ => subRow_self a)]
    simp

/-- Witness for C3's amended theorem: a one-atom, one-bond molecule reacting
to itself with identity maps. -/
theorem create_rxn_graph_identity_amended_witness :
    (create_rxn_graph (d := 1)
      [Mol.mk [fun _ => 2] [fun _ => 3] [fun _ => 4]]
      [Mol.mk [fun _ => 2] [fun _ => 3] [fun _ => 4]]
      (fun nt =>
        match nt with
        | NodeType.atom => List.range 1
        | NodeType.bond => List.range 1
        | NodeType.global => [])
      [true] allTypes =
      Except.error "products_ft and mappings have different length") ∧
    (create_rxn_graph (d := 1)
      [Mol.mk [fun _ => 2] [fun _ => 3] [fun _ => 4]]
      [Mol.mk [fun _ => 2] [fun _ => 3] [fun _ => 4]]
      (fun nt =>
        match nt with
        | NodeType.atom => List.range 1
        | NodeType.bond => List.range 1
        | NodeType.global => [])
      [true] [NodeType.atom, NodeType.global] =
      Except.ok (Mol.mk [fun _ => 2] [fun _ => 3] [fun _ => 4],
        [(NodeType.atom, List.replicate 1 (zeroRow 1)),
         (NodeType.global, [zeroRow 1])])) :=
  create_rxn_graph_identity_amended
    (Mol.mk [fun _ => 2] [fun _ => 3] [fun _ => 4])
    (fun nt =>
      match nt with
      | NodeType.atom => List.range 1
      | NodeType.bond => List.range 1
      | NodeType.global => [])
    [true] rfl rfl (by decide)

/-- C4: for the atom and bond node types, `create_rxn_graph` succeeds only
if the correspondence map's length equals the row count of the concatenated
(for bond: padded) product feature tensor — a mismatch is never silently
truncated or padded but raises — and when the lengths match (together with
the other shape conditions of a well-formed reaction) it proceeds to a
successful result. -/
theorem create_rxn_graph_length_check {d : Nat} (r : Mol d)
    (products : List (Mol d)) (mappings : NodeType → List Nat) (hbp : List Bool) :
    (∀ g fts, create_rxn_graph [r] products mappings hbp allTypes =
        Except.ok (g, fts) →
      (catMolFt products NodeType.atom).length = (mappings NodeType.atom).length ∧
      (paddedProductBondFt products hbp).length = (mappings NodeType.bond).length) ∧
    (createOkCond r products mappings hbp →
      ∃ out, create_rxn_graph [r] products mappings hbp allTypes = Except.ok out) := by
  constructor
  · intro g fts h
    obtain ⟨_, hb⟩ := create_rxn_graph_ok_inv h
    obtain ⟨ta, tb, tg, ha2, hb2, _, _⟩ := buildFeats_allTypes_inv hb
    exact ⟨rxnFtForType_atom_ok_len ha2, rxnFtForType_bond_ok_len hb2⟩
  · intro h
    obtain ⟨sa, sb, _, _, hok⟩ := create_rxn_graph_ok_of_cond h
    exact ⟨_, hok⟩

/-- Witness for C4: a well-formed one-bond-breaking reaction passes the
length checks and succeeds. -/
theorem create_rxn_graph_length_check_witness :
    ∃ out,
      create_rxn_graph (d := 1)
        [Mol.mk [fun _ => 1] [fun _ => 3] [fun _ => 4]]
        [Mol.mk [fun _ => 1] [fun _ => 9] [fun _ => 5]]
        (fun nt =>
          match nt with
          | NodeType.atom => [0]
          | NodeType.bond => [0]
          | NodeType.global => [])
        [false] allTypes = Except.ok out :=
  (create_rxn_graph_length_check
    (Mol.mk [fun _ => 1] [fun _ => 3] [fun _ => 4])
    [Mol.mk [fun _ => 1] [fun _ => 9] [fun _ => 5]]
    (fun nt =>
      match nt with
      | NodeType.atom => [0]
      | NodeType.bond => [0]
      | NodeType.global => [])
    [false]).2 (by decide)

/-- C9: `create_rxn_graph` appends exactly one zero row to the concatenated
bond features of the bond-having products unconditionally — also when no
bond is broken — so the padded tensor has the kept row count plus one, a
bond correspondence map whose length is the kept row count (a pure
permutation of the product bonds) always fails the length check, and any
successful run requires the map length to be the kept row count plus one. -/
theorem bond_padding_unconditional {d : Nat} (r : Mol d)
    (products : List (Mol d)) (mappings : NodeType → List Nat) (hbp : List Bool) :
    (paddedProductBondFt products hbp).length =
      (compress (products.map (fun p => p.bondFt)) hbp).flatten.length + 1 ∧
    ((mappings NodeType.bond).length =
        (compress (products.map (fun p => p.bondFt)) hbp).flatten.length →
      rxnFtForType [r] products mappings hbp NodeType.bond =
        Except.error "products_ft and mappings have different length") ∧
    (∀ g fts, create_rxn_graph [r] products mappings hbp allTypes =
        Except.ok (g, fts) →
      (mappings NodeType.bond).length =
        (compress (products.map (fun p => p.bondFt)) hbp).flatten.length + 1) := by
  refine ⟨paddedProductBondFt_length products hbp, ?_, ?_⟩
  · intro h
    apply rxnFtForType_bond_mismatch
    rw [paddedProductBondFt_length products hbp, h]
    omega
  · intro g fts h
    obtain ⟨_, hb⟩ := create_rxn_graph_ok_inv h
    obtain ⟨ta, tb, tg, _, hb2, _, _⟩ := buildFeats_allTypes_inv hb
    have hlen := rxnFtForType_bond_ok_len hb2
    rw [paddedProductBondFt_length products hbp] at hlen
    omega

/-- Witness for C9: a no-bond-broken identity-length bond map (one product
keeping its one bond) fails the length check. -/
theorem bond_padding_unconditional_witness :
    rxnFtForType (d := 1)
      [Mol.mk [fun _ => 1] [fun _ => 3] [fun _ => 4]]
      [Mol.mk [fun _ => 1] [fun _ => 3] [fun _ => 5]]
      (fun nt =>
        match nt with
        | NodeType.atom => [0]
        | NodeType.bond => [0]
        | NodeType.global => [])
      [true] NodeType.bond =
      Except.error "products_ft and mappings have different length" :=
  (bond_padding_unconditional
    (Mol.mk [fun _ => 1] [fun _ => 3] [fun _ => 4])
    [Mol.mk [fun _ => 1] [fun _ => 3] [fun _ => 5]]
    (fun nt =>
      match nt with
      | NodeType.atom => [0]
      | NodeType.bond => [0]
      | NodeType.global => [])
    [true]).2.1 (by decide)

/-- C1: for a well-formed reaction whose product set includes exactly one
bond-free product, `create_rxn_graph` does not raise, and the bond feature
row corresponding to the broken bond — the reactant bond `i` that the bond
correspondence map sends to the appended zero row — equals the zero vector
minus the reactant's feature row for that bond. -/
theorem bond_padding_correct {d : Nat} (r : Mol d) (products : List (Mol d))
    (mappings : NodeType → List Nat) (hbp : List Bool) (i : Nat)
    (hwf : createOkCond r products mappings hbp)
    (hone : hbp.count false = 1)
    (hmap : (mappings NodeType.bond)[i]? =
      some (compress (products.map (fun p => p.bondFt)) hbp).flatten.length) :
    ∃ fts tb rrow,
      create_rxn_graph [r] products mappings hbp allTypes = Except.ok (r, fts) ∧
      ftLookup fts NodeType.bond = some tb ∧
      r.bondFt[i]? = some rrow ∧
      tb[i]? = some (subRow (zeroRow d) rrow) := by
  obtain ⟨sa, sb, hsa, hsb, hok⟩ := create_rxn_graph_ok_of_cond hwf
  obtain ⟨_, _, _, hb1, _, hb3⟩ := hwf
  have hi : i < (mappings NodeType.bond).length := by
    by_contra hni
    rw [List.getElem?_eq_none (Nat.le_of_not_lt hni)] at hmap
    exact absurd hmap (by simp)
  have hir : i < r.bondFt.length := by omega
  have hrrow : r.bondFt[i]? = some (r.bondFt.get ⟨i, hir⟩) := by
    rw [List.getElem?_eq_getElem hir]
    rfl
  have hsbi : sb[i]? = some (zeroRow d) := by
    rw [selectRows_getElem? hsb i, hmap]
    simp only [Option.some_bind]
    rw [paddedProductBondFt_eq_append]
    exact List.getElem?_concat_length _ _
  refine ⟨_, List.zipWith subRow sb r.bondFt, r.bondFt.get ⟨i, hir⟩, hok, ?_, hrrow, ?_⟩
  · rfl
  · rw [List.getElem?_zipWith', hsbi, hrrow]
    rfl

/-- Witness for C1: a three-atom, two-bond reactant splitting into a
two-atom one-bond product and a bond-free single-atom product; reactant
bond 1 is the broken one, mapped to the appended zero row. -/
theorem bond_padding_correct_witness :
    ∃ fts tb rrow,
      create_rxn_graph (d := 1)
        [Mol.mk [fun _ => 1, fun _ => 2, fun _ => 3] [fun _ => 4, fun _ => 5]
          [fun _ => 6]]
        [Mol.mk [fun _ => 1, fun _ => 2] [fun _ => 7] [fun _ => 8],
         Mol.mk [fun _ => 3] [fun _ => 9] [fun _ => 10]]
        (fun nt =>
          match nt with
          | NodeType.atom => [0, 1, 2]
          | NodeType.bond => [0, 1]
          | NodeType.global => [])
        [true, false] allTypes = Except.ok
          (Mol.mk [fun _ => 1, fun _ => 2, fun _ => 3] [fun _ => 4, fun _ => 5]
            [fun _ => 6], fts) ∧
      ftLookup fts NodeType.bond = some tb ∧
      (Mol.mk (d := 1) [fun _ => 1, fun _ => 2, fun _ => 3]
        [fun _ => 4, fun _ => 5] [fun _ => 6]).bondFt[1]? = some rrow ∧
      tb[1]? = some (subRow (zeroRow 1) rrow) := by
  have h := bond_padding_correct (d := 1)
    (Mol.mk [fun _ => 1, fun _ => 2, fun _ => 3] [fun _ => 4, fun _ => 5]
      [fun _ => 6])
    [Mol.mk [fun _ => 1, fun _ => 2] [fun _ => 7] [fun _ => 8],
     Mol.mk [fun _ => 3] [fun _ => 9] [fun _ => 10]]
    (fun nt =>
      match nt with
      | NodeType.atom => [0, 1, 2]
      | NodeType.bond => [0, 1]
      | NodeType.global => [])
    [true, false] 1 (by decide) (by decide) (by decide)
  exact h

/-- C2: for a reaction with two products, whenever `create_rxn_graph`
computes a result, its global-type feature equals the sum of the two
products' global feature rows minus the reactant's global feature row
(pooling by summation, no per-row reordering). -/
theorem global_pooling_two_products {d : Nat} (r p1 p2 : Mol d)
    (mappings : NodeType → List Nat) (hbp : List Bool)
    {g : Mol d} {fts : List (NodeType × Tensor d)} (gr g1 g2 : Row d)
    (hgr : r.globalFt = [gr]) (hg1 : p1.globalFt = [g1])
    (hg2 : p2.globalFt = [g2])
    (h : create_rxn_graph [r] [p1, p2] mappings hbp allTypes = Except.ok (g, fts)) :
    ftLookup fts NodeType.global = some [subRow (addRow g1 g2) gr] := by
  obtain ⟨_, hb⟩ := create_rxn_graph_ok_inv h
  obtain ⟨ta, tb, tg, _, _, hg3, hfts⟩ := buildFeats_allTypes_inv hb
  have hval := rxnFtForType_global_eq [r] [p1, p2] mappings hbp
  rw [hg3] at hval
  have htg : tg = [subRow (sumRows (catMolFt [p1, p2] NodeType.global))
      (sumRows (catMolFt [r] NodeType.global))] := by
    exact Except.ok.inj hval
  rw [catMolFt_pair, catMolFt_singleton] at htg
  simp only [molFt] at htg
  rw [hgr, hg1, hg2] at htg
  simp only [List.cons_append, List.nil_append] at htg
  rw [sumRows_pair, sumRows_single] at htg
  rw [hfts]
  simp [ftLookup, htg]

/-- Witness for C2: a two-atom one-bond reactant splitting into two
single-atom products. -/
theorem global_pooling_two_products_witness :
    ∃ (g : Mol 1) (fts : List (NodeType × Tensor 1)),
      create_rxn_graph
        [Mol.mk [fun _ => 1, fun _ => 2] [fun _ => 3] [fun _ => 4]]
        [Mol.mk [fun _ => 1] [fun _ => 9] [fun _ => 5],
         Mol.mk [fun _ => 2] [fun _ => 8] [fun _ => 6]]
        (fun nt =>
          match nt with
          | NodeType.atom => [0, 1]
          | NodeType.bond => [0]
          | NodeType.global => [])
        [false, false] allTypes = Except.ok (g, fts) ∧
      ftLookup fts NodeType.global =
        some [subRow (addRow (fun _ => 5) (fun _ => 6)) (fun _ => 4)] :=
  ⟨_, _, rfl,
    global_pooling_two_products
      (Mol.mk [fun _ => 1, fun _ => 2] [fun _ => 3] [fun _ => 4])
      (Mol.mk [fun _ => 1] [fun _ => 9] [fun _ => 5])
      (Mol.mk [fun _ => 2] [fun _ => 8] [fun _ => 6])
      (fun nt =>
        match nt with
        | NodeType.atom => [0, 1]
        | NodeType.bond => [0]
        | NodeType.global => [])
      [false, false] (fun _ => 4) (fun _ => 5) (fun _ => 6) rfl rfl rfl rfl⟩

theorem splitSizes_of_sum {α : Type} :
    ∀ {sizes : List Nat} {xs : List α}, sizes.sum = xs.length →
      ∃ l, splitSizes sizes xs = some l ∧ l.length = sizes.length := by
  intro sizes
  induction sizes with
  | nil =>
    intro xs h
    have hx : xs = [] := List.eq_nil_of_length_eq_zero (by simp at h; omega)
    subst hx
    exact ⟨[], rfl, rfl⟩
  | cons n rest ih =>
    intro xs h
    simp only [List.sum_cons] at h
    have hlen : (xs.drop n).length = rest.sum := by
      simp [List.length_drop]
      omega
    obtain ⟨l, hl, hllen⟩ := ih hlen.symm
    refine ⟨xs.take n :: l, ?_, by simp [hllen]⟩
    simp only [splitSizes]
    rw [if_pos (by omega), hl]

/-- C10: `mol_graph_to_rxn_graph` moves the batched graph to `cuda:0` before
attaching features, so on a machine without CUDA it — and with it `forward`
and `feature_before_fc` — fails for every input, and when CUDA is available
the graph the construction works on is on `cuda:0` regardless of the input
graph's device. -/
theorem builder_requires_cuda {d m : Nat} :
    (∀ (graph : BatchedGraph) (feats : Feats d) (reactions : List Reaction),
      mol_graph_to_rxn_graph false graph feats reactions =
        Except.error "CUDA not available") ∧
    (∀ (emb : Feats d → Feats d) (layers : List (Feats d → Feats d))
        (pool : Tensor d → Tensor d → Tensor d → Row m)
        (fcs : List (Row m → Row m)) (graph : BatchedGraph) (feats : Feats d)
        (reactions : List Reaction),
      forward false emb layers pool fcs graph feats reactions =
        Except.error "CUDA not available") ∧
    (∀ (emb : Feats d → Feats d) (layers : List (Feats d → Feats d))
        (pool : Tensor d → Tensor d → Tensor d → Row m) (graph : BatchedGraph)
        (feats : Feats d) (reactions : List Reaction),
      feature_before_fc false emb layers pool graph feats reactions =
        Except.error "CUDA not available") ∧
    (∀ graph : BatchedGraph,
      toDevice true graph (Device.cuda 0) =
        Except.ok { graph with device := Device.cuda 0 }) := by
  refine ⟨?_, ?_, ?_, ?_⟩
  · intro graph feats reactions
    simp [mol_graph_to_rxn_graph, toDevice]
  · intro emb layers pool fcs graph feats reactions
    simp [forward, mol_graph_to_rxn_graph, toDevice]
  · intro emb layers pool graph feats reactions
    simp [feature_before_fc, mol_graph_to_rxn_graph, toDevice]
  · intro graph
    simp [toDevice]

theorem _split_batched_output_of_sum {d : Nat} {graph : BatchedGraph}
    {value : Tensor d} (h : (graph.counts NodeType.bond).sum = value.length) :
    ∃ fts, _split_batched_output graph value = Except.ok fts ∧
      fts.length = (graph.counts NodeType.bond).length := by
  obtain ⟨l, hl, hlen⟩ := splitSizes_of_sum h
  exact ⟨l, by simp [_split_batched_output, hl], hlen⟩

theorem layerTrace_shape {d : Nat} {graph : BatchedGraph} :
    ∀ {layers : List (Feats d → Feats d)} {feats : Feats d},
      (∀ l ∈ layers, ∀ f : Feats d,
        ((l f) NodeType.bond).length = (f NodeType.bond).length) →
      (feats NodeType.bond).length = (graph.counts NodeType.bond).sum →
      ∃ acc, layerTrace graph layers feats = Except.ok acc ∧
        acc.length = layers.length ∧
        ∀ e ∈ acc, e.length = (graph.counts NodeType.bond).length := by
  intro layers
  induction layers with
  | nil =>
    intro feats _ _
    exact ⟨[], rfl, rfl, by simp⟩
  | cons l rest ih =>
    intro feats hpres hsum
    have hsum2 : ((l feats) NodeType.bond).length = (graph.counts NodeType.bond).sum := by
      rw [hpres l (List.mem_cons_self l rest) feats, hsum]
    obtain ⟨fts, hfts, hftslen⟩ := _split_batched_output_of_sum hsum2.symm
    obtain ⟨acc, hacc, hacclen, haccall⟩ :=
      ih (fun x hx => hpres x (List.mem_cons_of_mem l hx)) hsum2
    refine ⟨fts :: acc, ?_, by simp [hacclen], ?_⟩
    · simp only [layerTrace, hfts, hacc]
    · intro e he
      rcases List.mem_cons.mp he with he1 | he2
      · rw [he1, hftslen]
      · exact haccall e he2

/-- C7: for any batched molecule graph and any number of gated layers, the
layer-trace diagnostic `feature_at_each_layer` returns exactly
`1 + number of gated layers` entries (one after the embedding and one after
each gated layer), each a sequence of per-molecule bond-feature chunks
whose length is the number of molecules in the batch (the length of the
per-molecule bond-node count list). -/
theorem feature_at_each_layer_shape {d : Nat} (emb : Feats d → Feats d)
    (layers : List (Feats d → Feats d)) (graph : BatchedGraph) (feats : Feats d)
    (hemb : ((emb feats) NodeType.bond).length = (graph.counts NodeType.bond).sum)
    (hlayers : ∀ l ∈ layers, ∀ f : Feats d,
      ((l f) NodeType.bond).length = (f NodeType.bond).length) :
    ∃ entries, feature_at_each_layer emb layers graph feats = Except.ok entries ∧
      entries.length = 1 + layers.length ∧
      ∀ e ∈ entries, e.length = (graph.counts NodeType.bond).length := by
  obtain ⟨fts, hfts, hftslen⟩ := _split_batched_output_of_sum hemb.symm
  obtain ⟨acc, hacc, hacclen, haccall⟩ := layerTrace_shape hlayers hemb
  refine ⟨fts :: acc, ?_, by simp [hacclen]; omega, ?_⟩
  · simp only [feature_at_each_layer, hfts, hacc]
  · intro e he
    rcases List.mem_cons.mp he with he1 | he2
    · rw [he1, hftslen]
    · exact haccall e he2

/-- Witness for C7: one molecule with one bond node, identity embedding, no
gated layers. -/
theorem feature_at_each_layer_shape_witness :
    ∃ entries,
      feature_at_each_layer (d := 1) (fun f => f) []
        (BatchedGraph.mk Device.cpu (fun _ => [1])) (fun _ => [fun _ => 2]) =
        Except.ok entries ∧
      entries.length = 1 + ([] : List (Feats 1 → Feats 1)).length ∧
      ∀ e ∈ entries,
        e.length = ((BatchedGraph.mk Device.cpu (fun _ => [1])).counts
          NodeType.bond).length :=
  feature_at_each_layer_shape (fun f => f) []
    (BatchedGraph.mk Device.cpu (fun _ => [1])) (fun _ => [fun _ => 2])
    (by decide) (by simp)

/-- Shape of a per-reaction result of `create_rxn_graph` over the default
node types: the feats dict holds the three types in order, and each type's
tensor has the reaction graph's (= reactant's) node count for that type. -/
def pairShape {d : Nat} (pr : Mol d × List (NodeType × Tensor d)) : Prop :=
  ∃ ta tb tg,
    pr.2 = [(NodeType.atom, ta), (NodeType.bond, tb), (NodeType.global, tg)] ∧
    ta.length = pr.1.atomFt.length ∧ tb.length = pr.1.bondFt.length ∧
    tg.length = pr.1.globalFt.length

/-- The feature tensor a per-reaction feats dict holds for a node type
(defaulting to empty; under `pairShape` the key is always present). -/
def ftOf {d : Nat} (pr : Mol d × List (NodeType × Tensor d)) (nt : NodeType) :
    Tensor d :=
  (ftLookup pr.2 nt).getD []

/-- Well-formedness of one reaction descriptor relative to the unbatched
molecule list: the reactant and product indices are in range, there is
exactly one reactant, the correspondence maps are aligned
(`createOkCond`), and the reactant has one global node. -/
def rxnWf {d : Nat} (graphs : List (Mol d)) (rxn : Reaction) : Prop :=
  ∃ r products,
    gatherMols graphs rxn.reactants = Except.ok [r] ∧
    gatherMols graphs rxn.products = Except.ok products ∧
    createOkCond r products (mappingsOf rxn) (hbpOf rxn) ∧
    r.globalFt.length = 1

theorem perRxnCreate_of_wf {d : Nat} {graphs : List (Mol d)} {rxn : Reaction}
    (h : rxnWf graphs rxn) :
    ∃ pr, perRxnCreate graphs rxn = Except.ok pr ∧ pairShape pr := by
  obtain ⟨r, products, hgr, hgp, hcond, hglen⟩ := h
  obtain ⟨sa, sb, hsa, hsb, hok⟩ := create_rxn_graph_ok_of_cond hcond
  obtain ⟨h1, h2, h3, h4, h5, h6⟩ := hcond
  refine ⟨(r,
    [(NodeType.atom, List.zipWith subRow sa r.atomFt),
     (NodeType.bond, List.zipWith subRow sb r.bondFt),
     (NodeType.global,
       [subRow (sumRows (catMolFt products NodeType.global))
         (sumRows r.globalFt)])]), ?_, ?_⟩
  · simp [perRxnCreate, hgr, hgp, hok]
  · refine ⟨_, _, _, rfl, ?_, ?_, ?_⟩
    · rw [List.length_zipWith, selectRows_length hsa, h3, Nat.min_self]
    · rw [List.length_zipWith, selectRows_length hsb, h6, Nat.min_self]
    · rw [List.length_singleton, hglen]

theorem buildAll_of_wf {d : Nat} {graphs : List (Mol d)} :
    ∀ {reactions : List Reaction}, (∀ rxn ∈ reactions, rxnWf graphs rxn) →
      ∃ pairs, buildAll graphs reactions = Except.ok pairs ∧
        List.Forall₂
          (fun rxn pr => perRxnCreate graphs rxn = Except.ok pr ∧ pairShape pr)
          reactions pairs := by
  intro reactions
  induction reactions with
  | nil => intro _; exact ⟨[], rfl, List.Forall₂.nil⟩
  | cons rxn rest ih =>
    intro h
    obtain ⟨pr, hpr, hshape⟩ := perRxnCreate_of_wf (h rxn (List.mem_cons_self rxn rest))
    obtain ⟨pairs, hpairs, hfa⟩ := ih (fun x hx => h x (List.mem_cons_of_mem rxn hx))
    exact ⟨pr :: pairs, by simp [buildAll, hpr, hpairs],
      List.Forall₂.cons ⟨hpr, hshape⟩ hfa⟩

theorem forall₂_mem_right {α β : Type} {R : α → β → Prop} :
    ∀ {l1 : List α} {l2 : List β}, List.Forall₂ R l1 l2 →
      ∀ b ∈ l2, ∃ a ∈ l1, R a b := by
  intro l1 l2 h
  induction h with
  | nil => intro b hb; exact absurd hb (List.not_mem_nil b)
  | cons hr _ ih =>
    intro b hb
    rcases List.mem_cons.mp hb with hb1 | hb2
    · subst hb1
      exact ⟨_, List.mem_cons_self _ _, hr⟩
    · obtain ⟨a, ha, har⟩ := ih b hb2
      exact ⟨a, List.mem_cons_of_mem _ ha, har⟩

theorem lookupOrErr_of_shape {d : Nat} {pr : Mol d × List (NodeType × Tensor d)}
    (h : pairShape pr) :
    lookupOrErr pr.2 NodeType.atom = Except.ok (ftOf pr NodeType.atom) ∧
    lookupOrErr pr.2 NodeType.bond = Except.ok (ftOf pr NodeType.bond) ∧
    lookupOrErr pr.2 NodeType.global = Except.ok (ftOf pr NodeType.global) := by
  obtain ⟨ta, tb, tg, heq, _, _, _⟩ := h
  refine ⟨?_, ?_, ?_⟩ <;> simp [lookupOrErr, ftOf, heq, ftLookup]

theorem ftOf_length_of_shape {d : Nat} {pr : Mol d × List (NodeType × Tensor d)}
    (h : pairShape pr) :
    (ftOf pr NodeType.atom).length = pr.1.atomFt.length ∧
    (ftOf pr NodeType.bond).length = pr.1.bondFt.length ∧
    (ftOf pr NodeType.global).length = pr.1.globalFt.length := by
  obtain ⟨ta, tb, tg, heq, h1, h2, h3⟩ := h
  refine ⟨?_, ?_, ?_⟩ <;> simp [ftOf, heq, ftLookup, h1, h2, h3]

theorem catFeats_of_shape {d : Nat} :
    ∀ {pairs : List (Mol d × List (NodeType × Tensor d))}, pairs ≠ [] →
      (∀ pr ∈ pairs, pairShape pr) → ∀ nt : NodeType,
      catFeats pairs nt = Except.ok ((pairs.map (fun pr => ftOf pr nt)).flatten) := by
  intro pairs
  induction pairs with
  | nil => intro hne; exact absurd rfl hne
  | cons p rest ih =>
    intro _ hshape nt
    have hp := hshape p (List.mem_cons_self p rest)
    have hlook : lookupOrErr p.2 nt = Except.ok (ftOf p nt) := by
      obtain ⟨ha, hb, hg⟩ := lookupOrErr_of_shape hp
      cases nt with
      | atom => exact ha
      | bond => exact hb
      | global => exact hg
    cases rest with
    | nil => simp [catFeats, hlook]
    | cons q rest2 =>
      have hrest := ih (by simp) (fun x hx => hshape x (List.mem_cons_of_mem p hx)) nt
      simp only [catFeats] at hrest ⊢
      rw [hlook, hrest]
      simp

theorem batchedFeats_of_shape {d : Nat}
    {pairs : List (Mol d × List (NodeType × Tensor d))} (hne : pairs ≠ [])
    (hshape : ∀ pr ∈ pairs, pairShape pr) :
    batchedFeats pairs allTypes = Except.ok
      [(NodeType.atom, (pairs.map (fun pr => ftOf pr NodeType.atom)).flatten),
       (NodeType.bond, (pairs.map (fun pr => ftOf pr NodeType.bond)).flatten),
       (NodeType.global, (pairs.map (fun pr => ftOf pr NodeType.global)).flatten)] := by
  simp [batchedFeats, allTypes, catFeats_of_shape hne hshape]

theorem splitSizes_forall₂ {α : Type} {sizes : List Nat} {ts : List (List α)}
    (h : List.Forall₂ (fun n t => n = List.length t) sizes ts) :
    splitSizes sizes ts.flatten = some ts := by
  induction h with
  | nil => simp [splitSizes]
  | @cons n t ns ts2 hrel hrest ih =>
    subst hrel
    simp only [List.flatten_cons, splitSizes]
    rw [if_pos (by simp), List.take_left, List.drop_left, ih]

theorem forall₂_map_map {α β γ : Type} {R : β → γ → Prop} (f : α → β) (g : α → γ) :
    ∀ {l : List α}, (∀ x ∈ l, R (f x) (g x)) →
      List.Forall₂ R (l.map f) (l.map g) := by
  intro l
  induction l with
  | nil => intro _; exact List.Forall₂.nil
  | cons x xs ih =>
    intro h
    exact List.Forall₂.cons (h x (List.mem_cons_self x xs))
      (ih (fun y hy => h y (List.mem_cons_of_mem x hy)))

theorem zip3With_map {α α2 β γ δ : Type} (f : α2 → β → γ → δ) (a : α → α2)
    (b : α → β) (c : α → γ) :
    ∀ l : List α,
      zip3With f (l.map a) (l.map b) (l.map c) =
        l.map (fun x => f (a x) (b x) (c x)) := by
  intro l
  induction l with
  | nil => rfl
  | cons x xs ih => simp [zip3With, ih]

theorem readout_layer_of_shape {d m : Nat}
    (pool : Tensor d → Tensor d → Tensor d → Row m)
    {pairs : List (Mol d × List (NodeType × Tensor d))}
    (hshape : ∀ pr ∈ pairs, pairShape pr) :
    readout_layer pool (pairs.map Prod.fst)
      [(NodeType.atom, (pairs.map (fun pr => ftOf pr NodeType.atom)).flatten),
       (NodeType.bond, (pairs.map (fun pr => ftOf pr NodeType.bond)).flatten),
       (NodeType.global, (pairs.map (fun pr => ftOf pr NodeType.global)).flatten)] =
      Except.ok (pairs.map (fun pr =>
        pool (ftOf pr NodeType.atom) (ftOf pr NodeType.bond)
          (ftOf pr NodeType.global))) := by
  have hsa : splitSizes ((pairs.map Prod.fst).map (fun g => g.atomFt.length))
      ((pairs.map (fun pr => ftOf pr NodeType.atom)).flatten) =
      some (pairs.map (fun pr => ftOf pr NodeType.atom)) := by
    rw [List.map_map]
    apply splitSizes_forall₂
    apply forall₂_map_map
    intro pr hpr
    exact ((ftOf_length_of_shape (hshape pr hpr)).1).symm
  have hsb : splitSizes ((pairs.map Prod.fst).map (fun g => g.bondFt.length))
      ((pairs.map (fun pr => ftOf pr NodeType.bond)).flatten) =
      some (pairs.map (fun pr => ftOf pr NodeType.bond)) := by
    rw [List.map_map]
    apply splitSizes_forall₂
    apply forall₂_map_map
    intro pr hpr
    exact ((ftOf_length_of_shape (hshape pr hpr)).2.1).symm
  have hsg : splitSizes ((pairs.map Prod.fst).map (fun g => g.globalFt.length))
      ((pairs.map (fun pr => ftOf pr NodeType.global)).flatten) =
      some (pairs.map (fun pr => ftOf pr NodeType.global)) := by
    rw [List.map_map]
    apply splitSizes_forall₂
    apply forall₂_map_map
    intro pr hpr
    exact ((ftOf_length_of_shape (hshape pr hpr)).2.2).symm
  simp only [List.map_map] at hsa hsb hsg
  simp [readout_layer, lookupOrErr, ftLookup, hsa, hsb, hsg, zip3With_map]

theorem predictionFor_of_shape {d m : Nat} {graphs : List (Mol d)}
    {rxn : Reaction} {pr : Mol d × List (NodeType × Tensor d)}
    (pool : Tensor d → Tensor d → Tensor d → Row m) (fcs : List (Row m → Row m))
    (hok : perRxnCreate graphs rxn = Except.ok pr) (hsh : pairShape pr) :
    predictionFor graphs pool fcs rxn = Except.ok
      (applyFcs fcs (pool (ftOf pr NodeType.atom) (ftOf pr NodeType.bond)
        (ftOf pr NodeType.global))) := by
  obtain ⟨ha, hb, hg⟩ := lookupOrErr_of_shape hsh
  cases pr with
  | mk r fts =>
    simp only at ha hb hg
    simp [predictionFor, hok, ha, hb, hg]

/-- C6: for a nonempty batch of well-formed reactions, the forward pass
succeeds and returns exactly one prediction row per input reaction
descriptor, in reaction-list order: row `i` is exactly the prediction the
single-reaction pipeline `predictionFor` computes for reaction `i` (the
builder iterates reactions in list order and concatenates per-reaction
graphs and features in that order, and the readout split recovers them). -/
theorem forward_one_row_per_reaction {d m : Nat} (emb : Feats d → Feats d)
    (layers : List (Feats d → Feats d))
    (pool : Tensor d → Tensor d → Tensor d → Row m) (fcs : List (Row m → Row m))
    (graph : BatchedGraph) (feats : Feats d) (reactions : List Reaction)
    (graphs : List (Mol d))
    (hne : reactions ≠ [])
    (hub : unbatchWithFeats { graph with device := Device.cuda 0 }
      (applyLayers layers (emb feats)) = some graphs)
    (hwf : ∀ rxn ∈ reactions, rxnWf graphs rxn) :
    ∃ rows, forward true emb layers pool fcs graph feats reactions = Except.ok rows ∧
      rows.length = reactions.length ∧
      ∀ (i : Nat) (h1 : i < reactions.length) (h2 : i < rows.length),
        predictionFor graphs pool fcs (reactions.get ⟨i, h1⟩) =
          Except.ok (rows.get ⟨i, h2⟩) := by
  obtain ⟨pairs, hbuild, hfa⟩ := buildAll_of_wf hwf
  have hlen : pairs.length = reactions.length := (List.Forall₂.length_eq hfa).symm
  have hpne : pairs ≠ [] := by
    intro hp
    subst hp
    simp at hlen
    exact hne (List.eq_nil_of_length_eq_zero hlen.symm)
  have hshape : ∀ pr ∈ pairs, pairShape pr := by
    intro pr hpr
    obtain ⟨rxn, _, hR⟩ := forall₂_mem_right hfa pr hpr
    exact hR.2
  have hbf := batchedFeats_of_shape hpne hshape
  have hro := readout_layer_of_shape pool hshape
  refine ⟨pairs.map (fun pr => applyFcs fcs (pool (ftOf pr NodeType.atom)
    (ftOf pr NodeType.bond) (ftOf pr NodeType.global))), ?_, ?_, ?_⟩
  · simp only [forward, mol_graph_to_rxn_graph, toDevice, if_pos, hub, hbuild, hbf, hro]
    simp [List.map_map, Function.comp]
  · simp [hlen]
  · intro i h1 h2
    have hip : i < pairs.length := by
      rw [List.length_map] at h2
      exact h2
    have hfa2 := (List.forall₂_iff_get.mp hfa).2 i h1 hip
    rw [predictionFor_of_shape pool fcs hfa2.1 hfa2.2]
    congr 1
    simp [List.get_eq_getElem]

/-- Witness for C6: one reaction (a one-bond reactant splitting into two
single-atom bond-free products), identity embedding, no gated layers. -/
theorem forward_one_row_per_reaction_witness :
    ∃ rows,
      forward (d := 1) (m := 1) true (fun f => f) []
        (fun ta tb tg => sumRows (ta ++ tb ++ tg)) []
        (BatchedGraph.mk Device.cpu (fun nt =>
          match nt with
          | NodeType.atom => [2, 1, 1]
          | NodeType.bond => [1, 1, 1]
          | NodeType.global => [1, 1, 1]))
        (fun nt =>
          match nt with
          | NodeType.atom => [fun _ => 1, fun _ => 2, fun _ => 1, fun _ => 2]
          | NodeType.bond => [fun _ => 3, fun _ => 9, fun _ => 8]
          | NodeType.global => [fun _ => 4, fun _ => 5, fun _ => 6])
        [Reaction.mk [0] [1, 2] [0, 1] [[], []] [0]] = Except.ok rows ∧
      rows.length = ([Reaction.mk [0] [1, 2] [0, 1] [[], []] [0]] : List Reaction).length ∧
      ∀ (i : Nat)
        (h1 : i < ([Reaction.mk [0] [1, 2] [0, 1] [[], []] [0]] : List Reaction).length)
        (h2 : i < rows.length),
        predictionFor
          [Mol.mk [fun _ => 1, fun _ => 2] [fun _ => 3] [fun _ => 4],
           Mol.mk [fun _ => 1] [fun _ => 9] [fun _ => 5],
           Mol.mk [fun _ => 2] [fun _ => 8] [fun _ => 6]]
          (fun ta tb tg => sumRows (ta ++ tb ++ tg)) []
          (([Reaction.mk [0] [1, 2] [0, 1] [[], []] [0]] : List Reaction).get ⟨i, h1⟩) =
          Except.ok (rows.get ⟨i, h2⟩) := by
  have h := forward_one_row_per_reaction (d := 1) (m := 1) (fun f => f) []
    (fun ta tb tg => sumRows (ta ++ tb ++ tg)) []
    (BatchedGraph.mk Device.cpu (fun nt =>
      match nt with
      | NodeType.atom => [2, 1, 1]
      | NodeType.bond => [1, 1, 1]
      | NodeType.global => [1, 1, 1]))
    (fun nt =>
      match nt with
      | NodeType.atom => [fun _ => 1, fun _ => 2, fun _ => 1, fun _ => 2]
      | NodeType.bond => [fun _ => 3, fun _ => 9, fun _ => 8]
      | NodeType.global => [fun _ => 4, fun _ => 5, fun _ => 6])
    [Reaction.mk [0] [1, 2] [0, 1] [[], []] [0]]
    [Mol.mk [fun _ => 1, fun _ => 2] [fun _ => 3] [fun _ => 4],
     Mol.mk [fun _ => 1] [fun _ => 9] [fun _ => 5],
     Mol.mk [fun _ => 2] [fun _ => 8] [fun _ => 6]]
    (by simp) (by decide)
    (by
      intro rxn hr
      rw [List.mem_singleton] at hr
      subst hr
      exact ⟨Mol.mk [fun _ => 1, fun _ => 2] [fun _ => 3] [fun _ => 4],
        [Mol.mk [fun _ => 1] [fun _ => 9] [fun _ => 5],
         Mol.mk [fun _ => 2] [fun _ => 8] [fun _ => 6]],
        rfl, rfl, by decide, by decide⟩)
  exact h

end Bondnet
